import Mathlib

/-
Verification of the guesscraft 20-questions engine: a shallow embedding of
the knowledge base (`src/kb/kb.py`), the attribute index (`src/kb/index.py`),
the entropy guesser (`src/agents/guesser.py`), the game engine
(`src/engine/game_engine.py`) and the structured-output client
(`src/llm/client.py`), together with theorems about the properties the
specification states for them.
-/

namespace Guesscraft

/-- Attribute values stored in a knowledge base: Python stores a `bool` for
boolean attributes and a `str` for enum attributes (`ObjectItem.attributes`
in `src/kb/kb.py`). -/
inductive AttrValue where
  | b (v : Bool)
  | s (v : String)
deriving DecidableEq, Repr

/-- The `Attribute` dataclass of `src/kb/kb.py`. -/
structure Attribute where
  id : String
  name : String
  description : String
  kind : String
  options : Option (List String) := none
deriving DecidableEq, Repr

/-- The `ObjectItem` dataclass of `src/kb/kb.py`; the Python attribute dict
is modelled as an association list with unique keys (`List.lookup` is the
dict lookup). -/
structure ObjectItem where
  id : String
  name : String
  attributes : List (String × AttrValue)
deriving DecidableEq, Repr

/-- The `ObjectKB` container of `src/kb/kb.py`. -/
structure ObjectKB where
  attributes : List Attribute
  objects : List ObjectItem
deriving DecidableEq, Repr

/-- Python builds `attr_by_id = {a.id: a for a in attributes}`: on duplicate
ids the later entry wins, hence the lookup over the reversed list. -/
def attrById (kb : ObjectKB) (attribute_id : String) : Option Attribute :=
  kb.attributes.reverse.find? (fun a => a.id == attribute_id)

/-- Python builds `obj_by_id = {o.id: o for o in objects}`; on duplicate ids
the later entry wins. -/
def objById (kb : ObjectKB) (object_id : String) : Option ObjectItem :=
  kb.objects.reverse.find? (fun o => o.id == object_id)

/-- The seed knowledge base produced by `ObjectKB.from_seed` in
`src/kb/kb.py`. -/
def kbSeed : ObjectKB where
  attributes :=
    [ { id := "is_animal", name := "Is an animal",
        description := "The object is a living animal", kind := "boolean" },
      { id := "is_fruit", name := "Is a fruit",
        description := "The object is a fruit", kind := "boolean" },
      { id := "is_electronic", name := "Is electronic",
        description := "The object is an electronic device", kind := "boolean" },
      { id := "size", name := "Size", description := "Coarse size bucket",
        kind := "enum", options := some ["small", "medium", "large"] },
      { id := "habitat", name := "Habitat",
        description := "Where it typically exists", kind := "enum",
        options := some ["land", "air", "water"] } ]
  objects :=
    [ { id := "apple", name := "Apple",
        attributes := [("is_animal", .b false), ("is_fruit", .b true),
          ("is_electronic", .b false), ("size", .s "small"), ("habitat", .s "land")] },
      { id := "eagle", name := "Eagle",
        attributes := [("is_animal", .b true), ("is_fruit", .b false),
          ("is_electronic", .b false), ("size", .s "medium"), ("habitat", .s "air")] },
      { id := "laptop", name := "Laptop",
        attributes := [("is_animal", .b false), ("is_fruit", .b false),
          ("is_electronic", .b true), ("size", .s "medium"), ("habitat", .s "land")] },
      { id := "whale", name := "Whale",
        attributes := [("is_animal", .b true), ("is_fruit", .b false),
          ("is_electronic", .b false), ("size", .s "large"), ("habitat", .s "water")] } ]

/-- The `YesNo = Literal["yes", "no", "unknown"]` type of
`src/engine/types.py`. -/
inductive YesNo where
  | yes
  | no
  | unknown
deriving DecidableEq, Repr

/-- The `GuesserEntropyState` dataclass of `src/agents/guesser.py`.
`asked_attribute_ids` is a Python `set` (membership and insertion only), so
it is modelled as a `Finset`; `constraints` is a Python dict modelled as an
association list with dict-assignment semantics (`dictInsert`). -/
structure GuesserEntropyState where
  candidate_ids : List String
  asked_attribute_ids : Finset String
  constraints : List (String × Bool)

/-- The initial guesser state built in `GuesserEntropy.__init__`:
candidates are all KB object ids, no attribute asked, no constraint. -/
def guesserInit (kb : ObjectKB) : GuesserEntropyState where
  candidate_ids := kb.objects.map (fun o => o.id)
  asked_attribute_ids := ∅
  constraints := []

/-- Python dict assignment `m[k] = v`: replace the value in place if the key
is present, otherwise append the new binding. -/
def dictInsert (m : List (String × Bool)) (k : String) (v : Bool) : List (String × Bool) :=
  if m.any (fun p => p.1 == k) then
    m.map (fun p => if p.1 == k then (k, v) else p)
  else m ++ [(k, v)]

/-- Python equality `value == expected` where `value` is
`obj.attributes.get(attribute_id)` (so possibly `None` or an enum string)
and `expected` is a `bool`: only an actual boolean value can compare equal. -/
def pyEqBool : Option AttrValue → Bool → Bool
  | some (.b v), expected => v == expected
  | _, _ => false

/-- Model of `GuesserEntropy.update_with_answer` (`src/agents/guesser.py`,
lines 82-97).  A missing `oid` in `obj_by_id` would raise `KeyError` in Python;
candidates are always KB object ids, and the model treats a missing object
as not matching the expected value. -/
def update_with_answer (kb : ObjectKB) (st : GuesserEntropyState)
    (attribute_id : String) (answer : YesNo) : GuesserEntropyState :=
  match attrById kb attribute_id with
  | none => st
  | some attr =>
    if attr.kind ≠ "boolean" then st
    else if answer = .unknown then st
    else
      let expected : Bool := answer == .yes
      { st with
        constraints := dictInsert st.constraints attribute_id expected
        candidate_ids := st.candidate_ids.filter (fun oid =>
          pyEqBool ((objById kb oid).bind (fun o => o.attributes.lookup attribute_id))
            expected) }

/-- Model of `GuesserEntropy.should_guess` (`src/agents/guesser.py`, lines
99-109).
The threshold `tau` and the uniform posterior `1.0 / max(1, len(...))` are
modelled exactly in `ℚ`; the turn counters are Python ints, modelled as `ℤ`. -/
def should_guess (tau : ℚ) (st : GuesserEntropyState)
    (questions_used max_questions : ℤ) : Bool :=
  if st.candidate_ids.length ≤ 1 then true
  else
    let p_map : ℚ := 1 / (max 1 st.candidate_ids.length : ℚ)
    if p_map ≥ tau then true
    else if max_questions - questions_used ≤ 2 ∧ st.candidate_ids.length ≤ 3 then true
    else false

/-- The `make_guess` payload dict built by `GuesserEntropy.make_guess`;
optional keys of the `MakeGuess` schema are `Option`s. -/
structure GuessPayload where
  object_id : Option String := none
  object_name : Option String := none
  confidence : ℚ := 1
deriving DecidableEq, Repr

/-- Model of `GuesserEntropy.make_guess` (`src/agents/guesser.py`, lines
111-122).
A missing first candidate id would raise `KeyError` in Python; it is
modelled as returning no guess. -/
def make_guess (kb : ObjectKB) (st : GuesserEntropyState) : Option GuessPayload :=
  match st.candidate_ids with
  | [] => none
  | oid :: _ =>
    match objById kb oid with
    | some obj =>
      some { object_id := some obj.id, object_name := some obj.name,
             confidence := 1 / (st.candidate_ids.length : ℚ) }
    | none => none

/-- The value bucket `index[attr_id][value]` built by
`AttributeIndex.__init__` (`src/kb/index.py`): the ids, in KB object order,
of the objects whose attribute dict binds `attr_id` to `value`. -/
def indexBucket (kb : ObjectKB) (attr_id : String) (v : AttrValue) : List String :=
  (kb.objects.filter (fun o => o.attributes.lookup attr_id == some v)).map (fun o => o.id)

/-- Model of `AttributeIndex.yes_no_partition_counts` (`src/kb/index.py`,
lines 27-32) at the default `yes_value=True`, `no_value=False`: the overlap of the
`True` and `False` buckets with the candidate list, and the residual
`max(0, len(candidates) - yes - no)` (which is exactly truncated
subtraction on `ℕ`). -/
def yes_no_partition_counts (kb : ObjectKB) (candidate_ids : List String)
    (attr_id : String) : ℕ × ℕ × ℕ :=
  let yes := ((indexBucket kb attr_id (.b true)).filter
    (fun oid => candidate_ids.contains oid)).length
  let no := ((indexBucket kb attr_id (.b false)).filter
    (fun oid => candidate_ids.contains oid)).length
  (yes, no, candidate_ids.length - yes - no)

/-- One summand of the entropy loop in `AttributeIndex.entropy_from_counts`:
`p * log2 p` for a bucket of count `c` out of `total`, with zero-count
buckets skipped (`if c <= 0: continue`). -/
noncomputable def entropyTerm (total : ℕ) (c : ℕ) : ℝ :=
  if c = 0 then 0 else ((c : ℝ) / total) * Real.logb 2 ((c : ℝ) / total)

/-- Model of `AttributeIndex.entropy_from_counts` (`src/kb/index.py`, lines
34-46):
Shannon entropy in bits of a list of non-negative integer counts, `0` when
the total is `0`.  Python float arithmetic is idealised as `ℝ`. -/
noncomputable def entropy_from_counts (counts : List ℕ) : ℝ :=
  if counts.sum = 0 then 0 else -(counts.map (entropyTerm counts.sum)).sum

/-- Model of `AttributeIndex.expected_entropy_yes_no` (`src/kb/index.py`,
lines 48-50). -/
noncomputable def expected_entropy_yes_no (kb : ObjectKB)
    (candidate_ids : List String) (attr_id : String) : ℝ :=
  let c := yes_no_partition_counts kb candidate_ids attr_id
  entropy_from_counts [c.1, c.2.1, c.2.2]

/-- Model of `GuesserEntropy._boolean_attribute_ids` (`src/agents/guesser.py`,
lines 41-42). -/
def boolean_attribute_ids (kb : ObjectKB) : List String :=
  (kb.attributes.filter (fun a => a.kind == "boolean")).map (fun a => a.id)

/-- The loop of `GuesserEntropy.select_next_attribute`: starting from
`best_attr = None`, `best_score = -1.0`, replace the best on a strictly
greater score. -/
noncomputable def selectLoop (score : String → ℝ) (cands : List String) :
    Option String × ℝ :=
  cands.foldl (fun acc a_id =>
    if score a_id > acc.2 then (some a_id, score a_id) else acc)
    ((none : Option String), (-1 : ℝ))

/-- Model of `GuesserEntropy.select_next_attribute` (`src/agents/guesser.py`,
lines 44-60). -/
noncomputable def select_next_attribute (kb : ObjectKB)
    (st : GuesserEntropyState) : Option String :=
  let cands := (boolean_attribute_ids kb).filter
    (fun a_id => a_id ∉ st.asked_attribute_ids)
  if cands.isEmpty then none
  else (selectLoop (expected_entropy_yes_no kb st.candidate_ids) cands).1

/-- The `ask_question` payload dict built by `GuesserEntropy.next_question`. -/
structure AskPayload where
  question_text : String
  attribute_id : Option String := none
  confidence : ℚ := 1
deriving DecidableEq, Repr

/-- Model of `GuesserEntropy.next_question` (`src/agents/guesser.py`, lines
62-80),
in the default configuration without a phraser (the phrasing collaborator
is out of scope per the spec): marks the selected attribute as asked and
returns the `ask_question` payload with text `"Is it <name.lower()>?"`.
The returned state reflects the mutation of `asked_attribute_ids`. -/
noncomputable def next_question (kb : ObjectKB) (st : GuesserEntropyState) :
    Option (AskPayload × GuesserEntropyState) :=
  match select_next_attribute kb st with
  | none => none
  | some attr_id =>
    let st1 := { st with asked_attribute_ids := insert attr_id st.asked_attribute_ids }
    let attrName := ((attrById kb attr_id).map (fun a => a.name)).getD ""
    some ({ question_text := "Is it " ++ attrName.toLower ++ "?",
            attribute_id := some attr_id, confidence := 1 }, st1)

/-- The `answer_yes_no` payload dict produced by the host and forwarded by
the engine to the guesser's update function. -/
structure AnswerPayload where
  answer : YesNo
  justification : Option String := none
  consistency_score : ℚ := 1
deriving DecidableEq, Repr

/-- An action payload recorded in an engine event: one of the three payload
dict shapes of `src/engine/types.py`. -/
inductive ActionPayload where
  | ask (q : AskPayload)
  | answerAct (a : AnswerPayload)
  | guess (g : GuessPayload)
deriving DecidableEq, Repr

/-- The `Event` dataclass of `src/engine/types.py` restricted to the fields
the program computes deterministically; `timestamp_ms` is wall-clock time
and `latency_ms`/`tokens_in`/`tokens_out` are the constant `None` in
`GameEngine.play`, so they are omitted from the model. -/
structure Event where
  turn : ℕ
  agent : String
  action : ActionPayload
deriving DecidableEq, Repr

/-- The result dict returned by `GameEngine.play`.  Python returns dicts
with different key sets on the different exits; a key that is absent from
the returned dict is `none` here. -/
structure GameResult where
  result : String
  reason : Option String := none
  turns_used : Option ℕ := none
  guess : Option GuessPayload := none
  events : Option (List Event) := none
deriving DecidableEq, Repr

/-- The six callbacks `GameEngine.__init__` receives
(`src/engine/game_engine.py`).  In Python they are closures over mutable
agent state; here that state is an explicit value of type `σ` threaded
through each call.  `check_guess_fn` is a pure predicate. -/
structure Agents (σ : Type) where
  ask : σ → Option AskPayload × σ
  answer : String → σ → AnswerPayload × σ
  update : AnswerPayload → σ → σ
  shouldGuess : ℕ → ℕ → σ → Bool × σ
  makeGuess : σ → Option GuessPayload × σ
  checkGuess : String → Bool

/-- The guess-evaluation block of `GameEngine.play` (lines 61-67 and
repeated at lines 94-100): `oid = payload.get("object_id") or ""`, likewise
for the name, then `check_guess_fn` on the id if non-empty, else on the
name if non-empty, else `success = False`. -/
def evalGuess (check : String → Bool) (g : GuessPayload) : Bool :=
  let oid := g.object_id.getD ""
  let nm := g.object_name.getD ""
  if oid ≠ "" then check oid
  else if nm ≠ "" then check nm
  else false

/-- The loop body of `GameEngine.play` (`src/engine/game_engine.py`, lines
42-145), with the remaining iterations of `range(1, max_turns + 1)` as the
structural fuel: `turnsLeft` counts the turns not yet played and `turn` is
the current turn number. -/
def playAux {σ : Type} (A : Agents σ) (maxTurns : ℕ) :
    (turnsLeft turn used : ℕ) → List Event → σ → GameResult
  | 0, _, used, events, _ =>
    { result := "lose", turns_used := some used, events := some events }
  | turnsLeft + 1, turn, used, events, s =>
    let sg := A.shouldGuess used maxTurns s
    if sg.1 then
      match A.makeGuess sg.2 with
      | (none, _) => { result := "error", reason := some "no_guess_available" }
      | (some g, _) =>
        { result := if evalGuess A.checkGuess g then "win" else "lose",
          turns_used := some (used + 1), guess := some g,
          events := some (events ++ [{ turn := turn, agent := "guesser", action := .guess g }]) }
    else
      match A.ask sg.2 with
      | (none, s2) =>
        match A.makeGuess s2 with
        | (some g, _) =>
          { result := if evalGuess A.checkGuess g then "win" else "lose",
            turns_used := some (used + 1), guess := some g,
            events := some (events ++ [{ turn := turn, agent := "guesser", action := .guess g }]) }
        | (none, _) => { result := "error", reason := some "no_questions_and_no_guess" }
      | (some q, s2) =>
        let events1 := events ++ [{ turn := turn, agent := "guesser", action := .ask q }]
        let ans := A.answer q.question_text s2
        let events2 := events1 ++ [{ turn := turn, agent := "host", action := .answerAct ans.1 }]
        playAux A maxTurns turnsLeft (turn + 1) (used + 1) events2 (A.update ans.1 ans.2)

/-- Model of `GameEngine.play`: run the turn loop from turn 1 with no turns used and
an empty event trace. -/
def play {σ : Type} (A : Agents σ) (maxTurns : ℕ) (s : σ) : GameResult :=
  playAux A maxTurns maxTurns 1 0 [] s

/-- The engine driven by `GuesserEntropy` through the callback boundary of
`GameEngine.__init__`: `ask_fn` is `next_question`, `should_guess_fn` is
`should_guess`, `make_guess_fn` is `make_guess`.  The host answer function,
the answer-to-update translation and the guess checker are external
collaborators and stay parameters. -/
noncomputable def entropyAgents (kb : ObjectKB) (tau : ℚ)
    (answerFn : String → GuesserEntropyState → AnswerPayload × GuesserEntropyState)
    (updateFn : AnswerPayload → GuesserEntropyState → GuesserEntropyState)
    (check : String → Bool) : Agents GuesserEntropyState where
  ask := fun s =>
    match next_question kb s with
    | none => (none, s)
    | some qs => (some qs.1, qs.2)
  answer := answerFn
  update := updateFn
  shouldGuess := fun used maxT s => (should_guess tau s used maxT, s)
  makeGuess := fun s => (make_guess kb s, s)
  checkGuess := check

/-- A chat message (`{"role": ..., "content": ...}` dict) as sent to the
model by `LLMClient` (`src/llm/client.py`). -/
structure Msg where
  role : String
  content : String
deriving DecidableEq, Repr

/-- Helper for Python's `sub in s`: does `pat` occur at the head of `l`? -/
def charsStartWith : List Char → List Char → Bool
  | [], _ => true
  | _ :: _, [] => false
  | p :: ps, c :: cs => p == c && charsStartWith ps cs

/-- Helper for Python's `sub in s`: does `pat` occur anywhere in `l`? -/
def charsContain (pat : List Char) : List Char → Bool
  | [] => charsStartWith pat []
  | c :: cs => charsStartWith pat (c :: cs) || charsContain pat cs

/-- Python's substring test `pat in s`. -/
def strContainsSub (s pat : String) : Bool :=
  charsContain pat.data s.data

/-- Python's `str.lower()` (character-wise, which agrees for the ASCII
message text involved). -/
def strLower (s : String) : String :=
  ⟨s.data.map Char.toLower⟩

/-- The `_contains_json_word` helper of `LLMClient.structured_call`:
some message content mentions `"json"` after lowercasing. -/
def containsJsonWord (msgs : List Msg) : Bool :=
  msgs.any (fun m => strContainsSub (strLower m.content) "json")

/-- The system message `structured_call` appends when no supplied message
mentions json. -/
def jsonNudge : Msg where
  role := "system"
  content := "Respond in json only. Return a single minified json object strictly matching the provided schema."

/-- The repair message built on a parse/validation failure
(`src/llm/client.py`, lines 136-144): the error text and the compact schema
serialization (`pretty_compact_schema` output, passed in as `schemaText`). -/
def repairMsg (err schemaText : String) : Msg where
  role := "system"
  content := "Your last output could not be parsed/validated. Fix the issues below and return ONLY a compact json object that strictly matches the schema.\nError: " ++ err ++ "\nSchema: " ++ schemaText

/-- The success metadata of `structured_call` (the deterministic fields of
`LLMResponseMeta`): total attempts and the raw accepted text. -/
structure CallMeta where
  attempts : ℕ
  raw_text : String
deriving DecidableEq, Repr

/-- The repair loop `for repair_idx in range(max_repairs + 1)` of
`LLMClient.structured_call` (`src/llm/client.py`, lines 118-152).

The oracle (`_chat_completion` under `retry_call`) is external and is
modelled as a function from the sent message list to the returned text;
`check` stands for `json.loads` followed by `validate_json` (both external
libraries), returning the parsed value or the stringified exception.
`remaining = max_repairs - repair_idx` counts the repair rounds still
allowed, and the second component accumulates every message list sent to
the oracle, in order.  Note the source computes
`messages_repaired = [*messages_effective, repair_msg]` from the unchanged
`messages_effective` on every round.  On exhaustion Python raises
`LLMClientError(f"Structured output failed after repairs: ...")`, modelled
as the `Except.error` string. -/
def scLoop {V : Type} (oracle : List Msg → String) (check : String → Except String V)
    (schemaText : String) (msgsEff : List Msg) :
    (remaining : ℕ) → (lastText : String) → (attempts : ℕ) →
    (sent : List (List Msg)) → Except String (V × CallMeta) × List (List Msg)
  | 0, lastText, attempts, sent =>
    (match check lastText with
     | .ok v => .ok (v, { attempts := attempts, raw_text := lastText })
     | .error e => .error ("Structured output failed after repairs: " ++ e), sent)
  | remaining + 1, lastText, attempts, sent =>
    match check lastText with
    | .ok v => (.ok (v, { attempts := attempts, raw_text := lastText }), sent)
    | .error e =>
      let msgsRepaired := msgsEff ++ [repairMsg e schemaText]
      scLoop oracle check schemaText msgsEff remaining (oracle msgsRepaired)
        (attempts + 1) (sent ++ [msgsRepaired])

/-- Model of `LLMClient.structured_call` (`src/llm/client.py`, lines 75-152):
ensure
some message mentions json, invoke the oracle once, then run the repair
loop.  Returns the parsed value with metadata (or the fatal error string)
together with the list of message lists sent to the oracle, one entry per
oracle invocation. -/
def structured_call {V : Type} (oracle : List Msg → String)
    (check : String → Except String V) (schemaText : String)
    (messages : List Msg) (max_repairs : ℕ) :
    Except String (V × CallMeta) × List (List Msg) :=
  let msgsEff := if containsJsonWord messages then messages else messages ++ [jsonNudge]
  scLoop oracle check schemaText msgsEff max_repairs (oracle msgsEff) 1 [msgsEff]

/-- Transcription of the specification's wording for `should_guess` ("true
if exactly one candidate remains; true if the uniform posterior
`1 / |candidates|` meets or exceeds a configured confidence threshold τ;
true if the turn budget has ≤2 turns remaining and the candidate set has
shrunk to ≤3"), for comparison against the implementation. -/
def should_guess_claimed (tau : ℚ) (st : GuesserEntropyState)
    (questions_used max_questions : ℤ) : Bool :=
  if st.candidate_ids.length = 1 then true
  else if (1 : ℚ) / (st.candidate_ids.length : ℚ) ≥ tau then true
  else if max_questions - questions_used ≤ 2 ∧ st.candidate_ids.length ≤ 3 then true
  else false

/-- The terminal result dict built by the guess-evaluation block of
`GameEngine.play` (both at lines 68-73 and at lines 101-106): win or lose
according to the check, the incremented turn counter, the guess payload and
the trace extended with the guess event. -/
def guessTerminal (check : String → Bool) (turn used : ℕ) (events : List Event)
    (g : GuessPayload) : GameResult where
  result := if evalGuess check g then "win" else "lose"
  turns_used := some (used + 1)
  guess := some g
  events := some (events ++ [{ turn := turn, agent := "guesser", action := .guess g }])

/-- A guesser that always wants to guess but never produces a guess:
exercises the `no_guess_available` exit of the engine. -/
def noGuessAgents : Agents Unit where
  ask := fun s => (none, s)
  answer := fun _ s => ({ answer := .unknown }, s)
  update := fun _ s => s
  shouldGuess := fun _ _ s => (true, s)
  makeGuess := fun s => (none, s)
  checkGuess := fun _ => false

/-- A guesser that never wants to guess and never asks, but does produce a
guess when forced: exercises the fallback-guess path of the engine. -/
def fallbackAgents : Agents Unit where
  ask := fun s => (none, s)
  answer := fun _ s => ({ answer := .unknown }, s)
  update := fun _ s => s
  shouldGuess := fun _ _ s => (false, s)
  makeGuess := fun s => (some { object_id := some "apple", object_name := some "Apple" }, s)
  checkGuess := fun x => x == "apple"

/-- A one-boolean-attribute knowledge base with no objects, used to
evaluate the attribute selector on concrete input. -/
def kb0 : ObjectKB where
  attributes := [{ id := "a", name := "A", description := "", kind := "boolean" }]
  objects := []

/-- A deterministic oracle stub whose reply distinguishes the number of
messages it was sent. -/
def cOracle : List Msg → String :=
  fun msgs => String.mk (List.replicate msgs.length 'x')

/-- A parse/validation stub that rejects every reply, reporting the reply
itself as the validation error. -/
def cCheck : String → Except String Unit :=
  fun s => .error s

/-- A user message that already mentions json, so that `structured_call`
appends no extra system message. -/
def cMsg0 : Msg where
  role := "user"
  content := "json please"

set_option maxRecDepth 100000

/-- Dict assignment makes the assigned key read back the assigned value. -/
theorem lookup_dictInsert (m : List (String × Bool)) (k : String) (v : Bool) :
    (dictInsert m k v).lookup k = some v := by
  unfold dictInsert
  split_ifs with h
  · induction m with
    | nil => simp at h
    | cons p ps ih =>
      obtain ⟨pk, pv⟩ := p
      by_cases hp : pk = k
      · subst hp
        rw [List.map_cons,
          show (if ((pk, pv).1 == pk) = true then (pk, v) else (pk, pv)) = (pk, v) from
            if_pos (by simp)]
        simp [List.lookup]
      · have hp' : (pk == k) = false := beq_eq_false_iff_ne.mpr hp
        simp only [List.any_cons, hp', Bool.false_or] at h
        have hk' : (k == pk) = false := beq_eq_false_iff_ne.mpr (Ne.symm hp)
        rw [List.map_cons,
          show (if ((pk, pv).1 == k) = true then (k, v) else (pk, pv)) = (pk, pv) from
            if_neg (by simp [hp'])]
        simpa [List.lookup, hk'] using ih h
  · induction m with
    | nil => simp [List.lookup]
    | cons p ps ih =>
      obtain ⟨pk, pv⟩ := p
      simp only [List.any_cons, Bool.or_eq_true, not_or] at h
      have hp : (pk == k) = false := by
        cases hb : pk == k
        · rfl
        · exact absurd hb h.1
      have hk' : (k == pk) = false :=
        beq_eq_false_iff_ne.mpr (Ne.symm (beq_eq_false_iff_ne.mp hp))
      simpa [List.lookup, hk'] using ih h.2

/-- Behaviour of `update_with_answer` when the attribute id is not in the KB. -/
theorem update_with_answer_of_attr_none {kb : ObjectKB} {attribute_id : String}
    (st : GuesserEntropyState) (answer : YesNo)
    (hfind : attrById kb attribute_id = none) :
    update_with_answer kb st attribute_id answer = st := by
  unfold update_with_answer
  rw [hfind]

/-- Behaviour of `update_with_answer` on a non-boolean attribute. -/
theorem update_with_answer_of_not_boolean {kb : ObjectKB} {attribute_id : String}
    {attr : Attribute} (st : GuesserEntropyState) (answer : YesNo)
    (hfind : attrById kb attribute_id = some attr) (hkind : attr.kind ≠ "boolean") :
    update_with_answer kb st attribute_id answer = st := by
  unfold update_with_answer
  rw [hfind]
  simp only [if_pos hkind]

/-- Behaviour of `update_with_answer` on an `unknown` answer. -/
theorem update_with_answer_of_unknown (kb : ObjectKB) (st : GuesserEntropyState)
    (attribute_id : String) :
    update_with_answer kb st attribute_id YesNo.unknown = st := by
  unfold update_with_answer
  cases hfind : attrById kb attribute_id with
  | none => rfl
  | some attr =>
    dsimp only
    by_cases hkind : attr.kind ≠ "boolean"
    · rw [if_pos hkind]
    · rw [if_neg hkind, if_pos rfl]

/-- Behaviour of `update_with_answer` on a boolean attribute with a
`yes`/`no` answer:
record the constraint, filter the candidates. -/
theorem update_with_answer_of_yes_no {kb : ObjectKB} {attribute_id : String}
    {attr : Attribute} (st : GuesserEntropyState) (answer : YesNo)
    (hfind : attrById kb attribute_id = some attr) (hkind : attr.kind = "boolean")
    (hans : answer ≠ YesNo.unknown) :
    update_with_answer kb st attribute_id answer =
      { st with
        constraints := dictInsert st.constraints attribute_id (answer == YesNo.yes)
        candidate_ids := st.candidate_ids.filter (fun oid =>
          pyEqBool ((objById kb oid).bind (fun o => o.attributes.lookup attribute_id))
            (answer == YesNo.yes)) } := by
  unfold update_with_answer
  rw [hfind]
  dsimp only
  have h1 : ¬(attr.kind ≠ "boolean") := by simp [hkind]
  rw [if_neg h1, if_neg hans]

/-- C1: `update_with_answer` is the identity when the attribute is missing
or not boolean, and when the answer is `unknown`; for `yes`/`no` on a
boolean attribute it records the expected boolean in the constraint map and
replaces the candidate list by the filtered subsequence of candidates whose
stored value equals the expected boolean, dropping entities that lack the
attribute; the asked-attribute set is never touched and the candidate list
never grows. -/
theorem C1_update_with_answer (kb : ObjectKB) (st : GuesserEntropyState)
    (attribute_id : String) (answer : YesNo) :
    (update_with_answer kb st attribute_id answer).asked_attribute_ids
        = st.asked_attribute_ids
    ∧ (update_with_answer kb st attribute_id answer).candidate_ids.length
        ≤ st.candidate_ids.length
    ∧ (attrById kb attribute_id = none →
        update_with_answer kb st attribute_id answer = st)
    ∧ (∀ attr, attrById kb attribute_id = some attr → attr.kind ≠ "boolean" →
        update_with_answer kb st attribute_id answer = st)
    ∧ (answer = YesNo.unknown → update_with_answer kb st attribute_id answer = st)
    ∧ (∀ attr, attrById kb attribute_id = some attr → attr.kind = "boolean" →
        answer ≠ YesNo.unknown →
        (update_with_answer kb st attribute_id answer).constraints.lookup attribute_id
            = some (answer == YesNo.yes)
        ∧ (update_with_answer kb st attribute_id answer).candidate_ids
            = st.candidate_ids.filter (fun oid =>
                pyEqBool ((objById kb oid).bind (fun o => o.attributes.lookup attribute_id))
                  (answer == YesNo.yes))
        ∧ ∀ oid, (objById kb oid).bind (fun o => o.attributes.lookup attribute_id) = none →
            oid ∉ (update_with_answer kb st attribute_id answer).candidate_ids) := by
  have hmain : ∀ attr, attrById kb attribute_id = some attr → attr.kind = "boolean" →
      answer ≠ YesNo.unknown →
      update_with_answer kb st attribute_id answer =
        { st with
          constraints := dictInsert st.constraints attribute_id (answer == YesNo.yes)
          candidate_ids := st.candidate_ids.filter (fun oid =>
            pyEqBool ((objById kb oid).bind (fun o => o.attributes.lookup attribute_id))
              (answer == YesNo.yes)) } :=
    fun _ hfind hkind hans => update_with_answer_of_yes_no st answer hfind hkind hans
  have hid : update_with_answer kb st attribute_id answer = st
      ∨ (∃ attr, attrById kb attribute_id = some attr ∧ attr.kind = "boolean"
          ∧ answer ≠ YesNo.unknown) := by
    cases hfind : attrById kb attribute_id with
    | none => exact Or.inl (update_with_answer_of_attr_none st answer hfind)
    | some attr =>
      by_cases hkind : attr.kind = "boolean"
      · by_cases hans : answer = YesNo.unknown
        · subst hans
          exact Or.inl (update_with_answer_of_unknown kb st attribute_id)
        · exact Or.inr ⟨attr, rfl, hkind, hans⟩
      · exact Or.inl (update_with_answer_of_not_boolean st answer hfind hkind)
  refine ⟨?_, ?_, ?_, ?_, ?_, ?_⟩
  · rcases hid with h | ⟨attr, hfind, hkind, hans⟩
    · rw [h]
    · rw [hmain attr hfind hkind hans]
  · rcases hid with h | ⟨attr, hfind, hkind, hans⟩
    · rw [h]
    · rw [hmain attr hfind hkind hans]
      exact List.length_filter_le _ _
  · exact fun h => update_with_answer_of_attr_none st answer h
  · exact fun attr hfind hkind => update_with_answer_of_not_boolean st answer hfind hkind
  · intro h
    subst h
    exact update_with_answer_of_unknown kb st attribute_id
  · intro attr hfind hkind hans
    rw [hmain attr hfind hkind hans]
    refine ⟨lookup_dictInsert _ _ _, rfl, ?_⟩
    intro oid hlook hmem
    simp only [List.mem_filter] at hmem
    rw [hlook] at hmem
    simp [pyEqBool] at hmem

/-- Witness for C1 on the seed KB: answering `yes` to `is_fruit` filters
the initial candidates down to the apple and records the constraint. -/
theorem C1_witness :
    (update_with_answer kbSeed (guesserInit kbSeed) "is_fruit" YesNo.yes).candidate_ids
        = ["apple"]
    ∧ (update_with_answer kbSeed (guesserInit kbSeed) "is_fruit"
        YesNo.yes).constraints.lookup "is_fruit" = some true := by
  have h := C1_update_with_answer kbSeed (guesserInit kbSeed) "is_fruit" YesNo.yes
  obtain ⟨-, -, -, -, -, h6⟩ := h
  obtain ⟨hc, hf, -⟩ := h6
    { id := "is_fruit", name := "Is a fruit", description := "The object is a fruit",
      kind := "boolean", options := none }
    (by decide) rfl (by decide)
  constructor
  · rw [hf]
    decide
  · simpa using hc

/-- C3 counterexample: with an empty candidate set, threshold τ = 2 and 20
turns remaining, the implementation returns true (its first test is
`len <= 1`) while the specification's wording ("exactly one candidate
remains", else posterior/budget tests) yields false. -/
theorem C3_counterexample :
    should_guess 2 { candidate_ids := [], asked_attribute_ids := ∅, constraints := [] } 0 20
        = true
    ∧ should_guess_claimed 2 { candidate_ids := [], asked_attribute_ids := ∅, constraints := [] }
        0 20 = false := by
  constructor
  · rfl
  · simp [should_guess_claimed]

/-- C3 (amended): `should_guess` returns true exactly when at most one
candidate remains, or the uniform posterior `1/|candidates|` (well-defined
since the set is then non-empty) meets the threshold, or at most two turns
remain and at most three candidates do. -/
theorem C3_should_guess (tau : ℚ) (st : GuesserEntropyState)
    (questions_used max_questions : ℤ) :
    should_guess tau st questions_used max_questions = true ↔
      (st.candidate_ids.length ≤ 1
        ∨ (1 ≤ st.candidate_ids.length ∧ tau ≤ 1 / (st.candidate_ids.length : ℚ))
        ∨ (max_questions - questions_used ≤ 2 ∧ st.candidate_ids.length ≤ 3)) := by
  unfold should_guess
  by_cases h1 : st.candidate_ids.length ≤ 1
  · simp [h1]
  · rw [if_neg h1]
    have hlen : 1 ≤ st.candidate_ids.length := by omega
    have hmax : ((1 : ℚ) ⊔ (st.candidate_ids.length : ℚ)) = (st.candidate_ids.length : ℚ) :=
      max_eq_right (by exact_mod_cast hlen)
    dsimp only
    rw [hmax]
    by_cases h2 : (1 : ℚ) / (st.candidate_ids.length : ℚ) ≥ tau
    · rw [if_pos h2]
      simp only [true_iff]
      exact Or.inr (Or.inl ⟨hlen, h2⟩)
    · rw [if_neg h2]
      by_cases h3 : max_questions - questions_used ≤ 2 ∧ st.candidate_ids.length ≤ 3
      · rw [if_pos h3]
        simp only [true_iff]
        exact Or.inr (Or.inr h3)
      · rw [if_neg h3]
        simp only [Bool.false_eq_true, false_iff]
        push_neg
        refine ⟨by omega, fun _ => not_le.mp h2, fun hb => ?_⟩
        by_contra hlen3
        push_neg at hlen3
        exact h3 ⟨hb, by omega⟩

/-- Shape of every result `playAux` can return: the outcome is one of
`win`/`lose`/`error`; error results carry only a reason; win and lose
results carry the turn counter and the trace, and a win always carries the
guess. -/
theorem playAux_shape {σ : Type} (A : Agents σ) (maxTurns : ℕ) :
    ∀ (turnsLeft turn used : ℕ) (events : List Event) (s : σ),
      ((playAux A maxTurns turnsLeft turn used events s).result = "win"
        ∨ (playAux A maxTurns turnsLeft turn used events s).result = "lose"
        ∨ (playAux A maxTurns turnsLeft turn used events s).result = "error")
      ∧ ((playAux A maxTurns turnsLeft turn used events s).result = "error" →
          ((playAux A maxTurns turnsLeft turn used events s).reason
              = some "no_guess_available"
            ∨ (playAux A maxTurns turnsLeft turn used events s).reason
              = some "no_questions_and_no_guess")
          ∧ (playAux A maxTurns turnsLeft turn used events s).turns_used = none
          ∧ (playAux A maxTurns turnsLeft turn used events s).guess = none
          ∧ (playAux A maxTurns turnsLeft turn used events s).events = none)
      ∧ ((playAux A maxTurns turnsLeft turn used events s).result = "win" →
          (playAux A maxTurns turnsLeft turn used events s).turns_used.isSome
          ∧ (playAux A maxTurns turnsLeft turn used events s).guess.isSome
          ∧ (playAux A maxTurns turnsLeft turn used events s).events.isSome
          ∧ (playAux A maxTurns turnsLeft turn used events s).reason = none)
      ∧ ((playAux A maxTurns turnsLeft turn used events s).result = "lose" →
          (playAux A maxTurns turnsLeft turn used events s).turns_used.isSome
          ∧ (playAux A maxTurns turnsLeft turn used events s).events.isSome
          ∧ (playAux A maxTurns turnsLeft turn used events s).reason = none) := by
  intro turnsLeft
  induction turnsLeft with
  | zero =>
    intro turn used events s
    refine ⟨Or.inr (Or.inl rfl), ?_, ?_, ?_⟩ <;> intro h <;> simp_all [playAux]
  | succ tl ih =>
    intro turn used events s
    rw [playAux]
    dsimp only
    by_cases hsg : (A.shouldGuess used maxTurns s).1
    · rw [if_pos hsg]
      rcases hmg : A.makeGuess (A.shouldGuess used maxTurns s).2 with ⟨og, s2⟩
      cases og with
      | none =>
        dsimp only
        refine ⟨Or.inr (Or.inr rfl), fun _ => ⟨Or.inl rfl, rfl, rfl, rfl⟩, ?_, ?_⟩ <;>
          intro h <;> simp at h
      | some g =>
        dsimp only
        by_cases hev : evalGuess A.checkGuess g <;> simp [hev]
    · rw [if_neg hsg]
      rcases hask : A.ask (A.shouldGuess used maxTurns s).2 with ⟨oq, s2⟩
      cases oq with
      | none =>
        dsimp only
        rcases hmg : A.makeGuess s2 with ⟨og, s3⟩
        cases og with
        | some g =>
          dsimp only
          by_cases hev : evalGuess A.checkGuess g <;> simp [hev]
        | none =>
          dsimp only
          refine ⟨Or.inr (Or.inr rfl), fun _ => ⟨Or.inr rfl, rfl, rfl, rfl⟩, ?_, ?_⟩ <;>
            intro h <;> simp at h
      | some q =>
        dsimp only
        exact ih (turn + 1) (used + 1)
          (events ++ [{ turn := turn, agent := "guesser", action := .ask q }]
            ++ [{ turn := turn, agent := "host",
                  action := .answerAct (A.answer q.question_text s2).1 }])
          (A.update (A.answer q.question_text s2).1 (A.answer q.question_text s2).2)

/-- C5 (amended): every run of `play` terminates in exactly one result
record whose outcome is `win`, `lose` or `error`; win/lose records carry
the turn count and the full trace (and a guess when one was made), while
the two `error` exits return only the result and reason keys, without the
turn count, final action, or trace. -/
theorem C5_play_terminal {σ : Type} (A : Agents σ) (maxTurns : ℕ) (s : σ) :
    ((play A maxTurns s).result = "win"
      ∨ (play A maxTurns s).result = "lose"
      ∨ (play A maxTurns s).result = "error")
    ∧ ((play A maxTurns s).result = "error" →
        ((play A maxTurns s).reason = some "no_guess_available"
          ∨ (play A maxTurns s).reason = some "no_questions_and_no_guess")
        ∧ (play A maxTurns s).turns_used = none
        ∧ (play A maxTurns s).guess = none
        ∧ (play A maxTurns s).events = none)
    ∧ ((play A maxTurns s).result = "win" →
        (play A maxTurns s).turns_used.isSome
        ∧ (play A maxTurns s).guess.isSome
        ∧ (play A maxTurns s).events.isSome
        ∧ (play A maxTurns s).reason = none)
    ∧ ((play A maxTurns s).result = "lose" →
        (play A maxTurns s).turns_used.isSome
        ∧ (play A maxTurns s).events.isSome
        ∧ (play A maxTurns s).reason = none) :=
  playAux_shape A maxTurns maxTurns 1 0 [] s

/-- C5 counterexample: a run that ends in the `no_guess_available` error
returns a record with no `turns_used` key and no `events` key, so the
terminal record does not always contain the turn count and the trace. -/
theorem C5_counterexample :
    play noGuessAgents 20 () = { result := "error", reason := some "no_guess_available" }
    ∧ (play noGuessAgents 20 ()).turns_used = none
    ∧ (play noGuessAgents 20 ()).events = none := by
  refine ⟨rfl, rfl, rfl⟩

/-- Witness for C5 at a concrete run: the error exit of the engine indeed
carries no trace. -/
theorem C5_witness :
    (play noGuessAgents 5 ()).events = none ∧ (play noGuessAgents 5 ()).guess = none := by
  have h := C5_play_terminal noGuessAgents 5 ()
  obtain ⟨-, herr, -, -⟩ := h
  obtain ⟨-, -, hg, hev⟩ := herr rfl
  exact ⟨hev, hg⟩

/-- C7: when the guesser declines to guess and then produces no question,
the engine immediately falls back to a guess, and that fallback is
evaluated exactly like a guess taken on the normal `should_guess` path
(same terminal record `guessTerminal`); only when the fallback guess is
also absent does the engine exit with the `no_questions_and_no_guess`
error. -/
theorem C7_fallback_guess {σ : Type} (A : Agents σ) (maxTurns turnsLeft turn used : ℕ)
    (events : List Event) (s s1 s2 : σ)
    (hsg : A.shouldGuess used maxTurns s = (false, s1))
    (hask : A.ask s1 = (none, s2)) :
    (playAux A maxTurns (turnsLeft + 1) turn used events s
      = match (A.makeGuess s2).1 with
        | some g => guessTerminal A.checkGuess turn used events g
        | none => { result := "error", reason := some "no_questions_and_no_guess" })
    ∧ (∀ (t : σ) (t1 t2 : σ) (g : GuessPayload),
        A.shouldGuess used maxTurns t = (true, t1) →
        A.makeGuess t1 = (some g, t2) →
        playAux A maxTurns (turnsLeft + 1) turn used events t
          = guessTerminal A.checkGuess turn used events g) := by
  constructor
  · rw [playAux]
    dsimp only
    rw [hsg]
    dsimp only
    rw [hask]
    dsimp only
    rcases hmg : A.makeGuess s2 with ⟨og, s3⟩
    cases og with
    | none => rfl
    | some g => rfl
  · intro t t1 t2 g hsg' hmg'
    rw [playAux]
    dsimp only
    rw [hsg']
    dsimp only
    rw [hmg']
    rw [if_pos rfl]
    rfl

/-- Witness for C7: a concrete guesser that never asks nor wants to guess,
but produces a correct fallback guess, wins in the fallback branch. -/
theorem C7_witness :
    playAux fallbackAgents 1 1 1 0 [] ()
      = guessTerminal (fun x => x == "apple") 1 0 []
          { object_id := some "apple", object_name := some "Apple" } := by
  have h := (C7_fallback_guess fallbackAgents 1 0 1 0 [] () () () rfl rfl).1
  simpa using h

/-- C10: the engine consults `check_guess` on the guess's `object_id`
whenever that is a non-empty string; only when the id is absent or empty
does it consult the `object_name`; and when both are absent or empty no
check happens and the evaluation (hence the guess outcome) is `lose`
independently of the checker. -/
theorem C10_check_guess_identifier (g : GuessPayload) (check : String → Bool) :
    (∀ i : String, g.object_id = some i → i ≠ "" → evalGuess check g = check i)
    ∧ ((g.object_id = none ∨ g.object_id = some "") →
        ∀ n : String, g.object_name = some n → n ≠ "" → evalGuess check g = check n)
    ∧ ((g.object_id = none ∨ g.object_id = some "") →
       (g.object_name = none ∨ g.object_name = some "") →
        evalGuess check g = false
        ∧ ∀ {σ : Type} (A : Agents σ), A.checkGuess = check →
            ∀ (maxTurns turnsLeft turn used : ℕ) (events : List Event) (s s1 s2 : σ),
              A.shouldGuess used maxTurns s = (true, s1) →
              A.makeGuess s1 = (some g, s2) →
              (playAux A maxTurns (turnsLeft + 1) turn used events s).result = "lose") := by
  have hid : ∀ (i : String), g.object_id = some i → g.object_id.getD "" = i := by
    intro i hi
    rw [hi]
    rfl
  refine ⟨?_, ?_, ?_⟩
  · intro i hi hne
    unfold evalGuess
    rw [hid i hi]
    rw [if_pos hne]
  · intro hidEmpty n hn hne
    unfold evalGuess
    have h1 : g.object_id.getD "" = "" := by
      rcases hidEmpty with h | h <;> rw [h] <;> rfl
    rw [h1, hn]
    simp only [Option.getD_some]
    rw [if_neg (by simp), if_pos hne]
  · intro hidEmpty hnmEmpty
    have hfalse : evalGuess check g = false := by
      unfold evalGuess
      have h1 : g.object_id.getD "" = "" := by
        rcases hidEmpty with h | h <;> rw [h] <;> rfl
      have h2 : g.object_name.getD "" = "" := by
        rcases hnmEmpty with h | h <;> rw [h] <;> rfl
      rw [h1, h2]
      rw [if_neg (by simp), if_neg (by simp)]
    refine ⟨hfalse, ?_⟩
    intro σ A hch maxTurns turnsLeft turn used events s s1 s2 hsg hmg
    rw [playAux]
    dsimp only
    rw [hsg]
    dsimp only
    rw [hmg]
    dsimp only
    rw [hch, hfalse]
    rfl

/-- Witness for C10: with a present non-empty object id, the evaluation is
exactly the checker applied to the id. -/
theorem C10_witness :
    evalGuess (fun x => x == "apple")
      { object_id := some "apple", object_name := some "Apple", confidence := 1 } = true := by
  have h := (C10_check_guess_identifier
    { object_id := some "apple", object_name := some "Apple", confidence := 1 }
    (fun x => x == "apple")).1 "apple" rfl (by decide)
  rw [h]
  decide

/-- C9: with an empty candidate set, `should_guess` is true for every turn
pair and every threshold (the test is `len <= 1`, not `== 1`), while
`make_guess` returns nothing, so the engine driven by this guesser exits
on its first turn with the `no_guess_available` error result. -/
theorem C9_empty_candidates (kb : ObjectKB) (tau : ℚ)
    (answerFn : String → GuesserEntropyState → AnswerPayload × GuesserEntropyState)
    (updateFn : AnswerPayload → GuesserEntropyState → GuesserEntropyState)
    (check : String → Bool) (st : GuesserEntropyState)
    (hempty : st.candidate_ids = []) (maxTurns : ℕ) (hpos : 1 ≤ maxTurns) :
    (∀ questions_used max_questions : ℤ,
        should_guess tau st questions_used max_questions = true)
    ∧ make_guess kb st = none
    ∧ play (entropyAgents kb tau answerFn updateFn check) maxTurns st
        = { result := "error", reason := some "no_guess_available" } := by
  have hsg : ∀ questions_used max_questions : ℤ,
      should_guess tau st questions_used max_questions = true := by
    intro qu mq
    unfold should_guess
    rw [if_pos (by rw [hempty]; simp)]
  have hmg : make_guess kb st = none := by
    unfold make_guess
    rw [hempty]
  refine ⟨hsg, hmg, ?_⟩
  obtain ⟨tl, rfl⟩ : ∃ tl, maxTurns = tl + 1 := ⟨maxTurns - 1, by omega⟩
  unfold play
  rw [playAux]
  dsimp only [entropyAgents]
  rw [hsg ((0 : ℕ) : ℤ) ((tl + 1 : ℕ) : ℤ), if_pos rfl, hmg]

/-- Witness for C9 on the seed KB with an emptied candidate list. -/
theorem C9_witness :
    play (entropyAgents kbSeed (6 / 10)
        (fun _ s => ({ answer := YesNo.unknown }, s)) (fun _ s => s) (fun _ => false)) 20
        { candidate_ids := [], asked_attribute_ids := ∅, constraints := [] }
      = { result := "error", reason := some "no_guess_available" } :=
  (C9_empty_candidates kbSeed (6 / 10) (fun _ s => ({ answer := YesNo.unknown }, s))
    (fun _ s => s) (fun _ => false)
    { candidate_ids := [], asked_attribute_ids := ∅, constraints := [] }
    rfl 20 (by omega)).2.2

/-- Behaviour of the repair loop when every oracle reply fails validation:
the final error wraps the validation failure of the reply to the last sent
message list, and the loop performs exactly one further invocation per
allowed repair round. -/
theorem scLoop_all_fail {V : Type} (oracle : List Msg → String)
    (check : String → Except String V) (schemaText : String) (msgsEff : List Msg)
    (hfail : ∀ msgs, ∃ e, check (oracle msgs) = Except.error e) :
    ∀ (remaining attempts : ℕ) (sent : List (List Msg)) (L : List Msg),
      sent.getLast? = some L →
      ∃ (Lf : List Msg) (e : String),
        (scLoop oracle check schemaText msgsEff remaining (oracle L) attempts sent).2.getLast?
            = some Lf
        ∧ check (oracle Lf) = Except.error e
        ∧ (scLoop oracle check schemaText msgsEff remaining (oracle L) attempts sent).1
            = Except.error ("Structured output failed after repairs: " ++ e)
        ∧ (scLoop oracle check schemaText msgsEff remaining (oracle L) attempts sent).2.length
            = sent.length + remaining := by
  intro remaining
  induction remaining with
  | zero =>
    intro attempts sent L hL
    obtain ⟨e, he⟩ := hfail L
    refine ⟨L, e, ?_, he, ?_, ?_⟩
    · rw [scLoop]
      exact hL
    · rw [scLoop]
      dsimp only
      rw [he]
    · rw [scLoop]
      simp
  | succ r ih =>
    intro attempts sent L hL
    obtain ⟨e, he⟩ := hfail L
    rw [scLoop]
    dsimp only
    rw [he]
    dsimp only
    obtain ⟨Lf, ef, h1, h2, h3, h4⟩ := ih (attempts + 1)
      (sent ++ [msgsEff ++ [repairMsg e schemaText]]) (msgsEff ++ [repairMsg e schemaText])
      (List.getLast?_concat _)
    refine ⟨Lf, ef, h1, h2, h3, ?_⟩
    rw [h4]
    simp only [List.length_append, List.length_cons, List.length_nil]
    omega

/-- C2: when every oracle reply fails JSON parsing or schema validation,
`structured_call` ends in the fatal "Structured output failed after
repairs" error (the `LLMClientError`), wrapping the validation failure of
the last reply, after exactly `max_repairs + 1` oracle invocations (the
sent-message log has exactly that many entries). -/
theorem C2_structured_output_exhausted {V : Type} (oracle : List Msg → String)
    (check : String → Except String V) (schemaText : String) (messages : List Msg)
    (max_repairs : ℕ)
    (hfail : ∀ msgs, ∃ e, check (oracle msgs) = Except.error e) :
    ∃ (Lf : List Msg) (e : String),
      (structured_call oracle check schemaText messages max_repairs).2.length
          = max_repairs + 1
      ∧ (structured_call oracle check schemaText messages max_repairs).2.getLast? = some Lf
      ∧ check (oracle Lf) = Except.error e
      ∧ (structured_call oracle check schemaText messages max_repairs).1
          = Except.error ("Structured output failed after repairs: " ++ e) := by
  unfold structured_call
  dsimp only
  obtain ⟨Lf, e, h1, h2, h3, h4⟩ := scLoop_all_fail oracle check schemaText
    (if containsJsonWord messages then messages else messages ++ [jsonNudge])
    hfail max_repairs 1
    [if containsJsonWord messages then messages else messages ++ [jsonNudge]]
    (if containsJsonWord messages then messages else messages ++ [jsonNudge]) rfl
  refine ⟨Lf, e, ?_, h1, h2, h3⟩
  rw [h4]
  simp only [List.length_singleton]
  omega

/-- Witness for C2: a stub oracle whose replies always fail validation,
with one repair allowed, is invoked exactly twice. -/
theorem C2_witness :
    (structured_call cOracle cCheck "S" [cMsg0] 1).2.length = 1 + 1 := by
  obtain ⟨Lf, e, hlen, -, -, -⟩ :=
    C2_structured_output_exhausted cOracle cCheck "S" [cMsg0] 1
      (fun msgs => ⟨cOracle msgs, rfl⟩)
  exact hlen

/-- The sent-message log of the repair loop always extends the incoming log
with lists of the fixed shape `messages_effective ++ [one repair message]`:
the loop never accumulates repair messages. -/
theorem scLoop_sent_shape {V : Type} (oracle : List Msg → String)
    (check : String → Except String V) (schemaText : String) (msgsEff : List Msg) :
    ∀ (remaining attempts : ℕ) (sent : List (List Msg)) (lastText : String),
      ∃ tail,
        (scLoop oracle check schemaText msgsEff remaining lastText attempts sent).2
            = sent ++ tail
        ∧ ∀ ms ∈ tail, ∃ e, ms = msgsEff ++ [repairMsg e schemaText] := by
  intro remaining
  induction remaining with
  | zero =>
    intro attempts sent lastText
    refine ⟨[], ?_, by simp⟩
    rw [scLoop]
    simp
  | succ r ih =>
    intro attempts sent lastText
    rw [scLoop]
    cases hc : check lastText with
    | ok v =>
      refine ⟨[], by simp, by simp⟩
    | error e =>
      dsimp only
      obtain ⟨tail, h1, h2⟩ := ih (attempts + 1)
        (sent ++ [msgsEff ++ [repairMsg e schemaText]])
        (oracle (msgsEff ++ [repairMsg e schemaText]))
      refine ⟨(msgsEff ++ [repairMsg e schemaText]) :: tail, ?_, ?_⟩
      · rw [h1]
        simp
      · intro ms hms
        rcases List.mem_cons.mp hms with h | h
        · exact ⟨e, h⟩
        · exact h2 ms h

/-- C6 (amended): the first oracle invocation sends the effective message
list (the input messages, plus the json nudge when none mentions json),
and every later invocation sends the effective message list plus exactly
one repair message — the one for the latest failure.  Repair messages are
not accumulated across rounds. -/
theorem C6_repair_message_shape {V : Type} (oracle : List Msg → String)
    (check : String → Except String V) (schemaText : String) (messages : List Msg)
    (max_repairs : ℕ) :
    (structured_call oracle check schemaText messages max_repairs).2.get? 0
        = some (if containsJsonWord messages then messages else messages ++ [jsonNudge])
    ∧ ∀ (i : ℕ) (ms : List Msg),
        (structured_call oracle check schemaText messages max_repairs).2.get? (i + 1)
            = some ms →
        ∃ e, ms = (if containsJsonWord messages then messages else messages ++ [jsonNudge])
          ++ [repairMsg e schemaText] := by
  unfold structured_call
  dsimp only
  obtain ⟨tail, h1, h2⟩ := scLoop_sent_shape oracle check schemaText
    (if containsJsonWord messages then messages else messages ++ [jsonNudge])
    max_repairs 1
    [if containsJsonWord messages then messages else messages ++ [jsonNudge]]
    (oracle (if containsJsonWord messages then messages else messages ++ [jsonNudge]))
  rw [h1]
  constructor
  · simp
  · intro i ms hms
    simp only [List.singleton_append, List.get?_cons_succ] at hms
    exact h2 ms (List.get?_mem hms)

/-- C6 counterexample: with a stub oracle and validator that fail twice
with distinct errors, the third oracle invocation carries only the second
repair message; the first repair message is absent, so the message set
sent after two failed rounds does not contain all repair messages
accumulated so far. -/
theorem C6_counterexample :
    (structured_call cOracle cCheck "S" [cMsg0] 2).2
      = [[cMsg0], [cMsg0, repairMsg "x" "S"], [cMsg0, repairMsg "xx" "S"]]
    ∧ repairMsg "x" "S" ∈ [cMsg0, repairMsg "x" "S"]
    ∧ repairMsg "x" "S" ∉ [cMsg0, repairMsg "xx" "S"] := by
  refine ⟨by decide, by decide, by decide⟩

/-- Witness for C6: in the same concrete run, the second invocation's
message list indeed has the single-repair-message shape. -/
theorem C6_witness :
    ∃ e, [cMsg0, repairMsg "x" "S"] = [cMsg0] ++ [repairMsg e "S"] := by
  have h := (C6_repair_message_shape cOracle cCheck "S" [cMsg0] 2).2 0
    [cMsg0, repairMsg "x" "S"] (by decide)
  have hj : containsJsonWord [cMsg0] = true := by decide
  rw [hj] at h
  simpa using h

/-- An element of a list of naturals is at most the list sum. -/
theorem mem_le_list_sum {c : ℕ} : ∀ {l : List ℕ}, c ∈ l → c ≤ l.sum := by
  intro l
  induction l with
  | nil => intro h; cases h
  | cons x xs ih =>
    intro h
    rcases List.mem_cons.mp h with rfl | h
    · simp [List.sum_cons]
    · have := ih h
      simp only [List.sum_cons]
      omega

/-- A list of nonpositive reals has nonpositive sum. -/
theorem list_sum_nonpos : ∀ {l : List ℝ}, (∀ x ∈ l, x ≤ 0) → l.sum ≤ 0 := by
  intro l
  induction l with
  | nil => intro _; simp
  | cons x xs ih =>
    intro h
    simp only [List.sum_cons]
    have h1 := h x (List.mem_cons_self x xs)
    have h2 := ih (fun y hy => h y (List.mem_cons_of_mem x hy))
    linarith

/-- Each entropy summand is nonpositive (it is `p * log2 p` with
`0 ≤ p ≤ 1`). -/
theorem entropyTerm_nonpos {total c : ℕ} (hc : c ≤ total) (ht : 0 < total) :
    entropyTerm total c ≤ 0 := by
  unfold entropyTerm
  split_ifs with h0
  · exact le_refl 0
  · have htR : (0 : ℝ) < total := by exact_mod_cast ht
    have hp0 : (0 : ℝ) ≤ (c : ℝ) / total := by positivity
    have hp1 : (c : ℝ) / total ≤ 1 := by
      rw [div_le_one htR]
      exact_mod_cast hc
    have hlog : Real.logb 2 ((c : ℝ) / total) ≤ 0 :=
      Real.logb_nonpos (by norm_num) hp0 hp1
    exact mul_nonpos_iff.mpr (Or.inl ⟨hp0, hlog⟩)

/-- The entropy of any count list is nonnegative. -/
theorem entropy_from_counts_nonneg (counts : List ℕ) :
    0 ≤ entropy_from_counts counts := by
  unfold entropy_from_counts
  split_ifs with h
  · exact le_refl 0
  · rw [neg_nonneg]
    refine list_sum_nonpos ?_
    intro x hx
    obtain ⟨c, hc, rfl⟩ := List.mem_map.mp hx
    exact entropyTerm_nonpos (mem_le_list_sum hc) (Nat.pos_of_ne_zero h)

/-- The expected yes/no entropy of any candidate list is nonnegative. -/
theorem expected_entropy_yes_no_nonneg (kb : ObjectKB) (candidate_ids : List String)
    (attr_id : String) : 0 ≤ expected_entropy_yes_no kb candidate_ids attr_id :=
  entropy_from_counts_nonneg _

/-- Characterization of the strict-improvement fold of the attribute
selector: either no element beats the initial score and the accumulator is
untouched, or the result is the first element attaining the running
maximum — elements before it score strictly less, elements after it score
no more. -/
theorem selectFold_spec (score : String → ℝ) :
    ∀ (l : List String) (b : Option String) (s : ℝ),
      (l.foldl (fun acc a_id =>
          if score a_id > acc.2 then (some a_id, score a_id) else acc) (b, s) = (b, s)
        ∧ ∀ x ∈ l, score x ≤ s)
      ∨ (∃ a l1 l2, l = l1 ++ a :: l2
          ∧ l.foldl (fun acc a_id =>
              if score a_id > acc.2 then (some a_id, score a_id) else acc) (b, s)
              = (some a, score a)
          ∧ s < score a
          ∧ (∀ x ∈ l1, score x < score a)
          ∧ (∀ x ∈ l2, score x ≤ score a)) := by
  intro l
  induction l with
  | nil =>
    intro b s
    exact Or.inl ⟨rfl, by simp⟩
  | cons x xs ih =>
    intro b s
    rw [List.foldl_cons]
    by_cases hx : score x > s
    · rw [if_pos hx]
      rcases ih (some x) (score x) with ⟨heq, hall⟩ | ⟨a, l1, l2, hl, heq, hlt, h1, h2⟩
      · exact Or.inr ⟨x, [], xs, rfl, heq, hx, by simp, hall⟩
      · refine Or.inr ⟨a, x :: l1, l2, by simp [hl], heq, lt_trans hx hlt, ?_, h2⟩
        intro y hy
        rcases List.mem_cons.mp hy with rfl | hy
        · exact hlt
        · exact h1 y hy
    · rw [if_neg hx]
      rcases ih b s with ⟨heq, hall⟩ | ⟨a, l1, l2, hl, heq, hlt, h1, h2⟩
      · refine Or.inl ⟨heq, ?_⟩
        intro y hy
        rcases List.mem_cons.mp hy with rfl | hy
        · exact le_of_not_lt hx
        · exact hall y hy
      · refine Or.inr ⟨a, x :: l1, l2, by simp [hl], heq, hlt, ?_, h2⟩
        intro y hy
        rcases List.mem_cons.mp hy with rfl | hy
        · exact lt_of_le_of_lt (le_of_not_lt hx) hlt
        · exact h1 y hy

/-- C4: the selector never returns an asked attribute; what it returns is a
boolean attribute of the KB; the returned attribute maximizes the expected
yes/no entropy among the unasked boolean attributes, and it is the first
attribute (in KB order) attaining that maximum; the selector returns
nothing exactly when every boolean attribute has been asked. -/
theorem C4_select_next_attribute (kb : ObjectKB) (st : GuesserEntropyState) :
    (select_next_attribute kb st = none ↔
      ∀ a_id ∈ boolean_attribute_ids kb, a_id ∈ st.asked_attribute_ids)
    ∧ ∀ a, select_next_attribute kb st = some a →
        a ∉ st.asked_attribute_ids
        ∧ (∃ attr ∈ kb.attributes, attr.id = a ∧ attr.kind = "boolean")
        ∧ (∀ b ∈ boolean_attribute_ids kb, b ∉ st.asked_attribute_ids →
            expected_entropy_yes_no kb st.candidate_ids b
              ≤ expected_entropy_yes_no kb st.candidate_ids a)
        ∧ ∃ l1 l2,
            (boolean_attribute_ids kb).filter (fun x => x ∉ st.asked_attribute_ids)
              = l1 ++ a :: l2
            ∧ ∀ b ∈ l1, expected_entropy_yes_no kb st.candidate_ids b
                < expected_entropy_yes_no kb st.candidate_ids a := by
  unfold select_next_attribute
  dsimp only
  constructor
  · constructor
    · intro hnone
      by_cases hemp : ((boolean_attribute_ids kb).filter
          (fun a_id => a_id ∉ st.asked_attribute_ids)).isEmpty
      · intro a ha
        by_contra hnot
        have hmem : a ∈ (boolean_attribute_ids kb).filter
            (fun a_id => a_id ∉ st.asked_attribute_ids) :=
          List.mem_filter.mpr ⟨ha, by simpa using hnot⟩
        rw [List.isEmpty_iff] at hemp
        rw [hemp] at hmem
        cases hmem
      · rw [if_neg hemp] at hnone
        exfalso
        rcases selectFold_spec (expected_entropy_yes_no kb st.candidate_ids)
            ((boolean_attribute_ids kb).filter (fun a_id => a_id ∉ st.asked_attribute_ids))
            none (-1) with ⟨heq, hall⟩ | ⟨a, l1, l2, hl, heq, _, _, _⟩
        · have hne : (boolean_attribute_ids kb).filter
              (fun a_id => a_id ∉ st.asked_attribute_ids) ≠ [] := by
            simpa [List.isEmpty_iff] using hemp
          obtain ⟨x, hx⟩ := List.exists_mem_of_ne_nil _ hne
          have h0 := expected_entropy_yes_no_nonneg kb st.candidate_ids x
          have := hall x hx
          linarith
        · unfold selectLoop at hnone
          rw [heq] at hnone
          cases hnone
    · intro hall
      have hemp : ((boolean_attribute_ids kb).filter
          (fun a_id => a_id ∉ st.asked_attribute_ids)) = [] := by
        rw [List.filter_eq_nil_iff]
        intro a ha
        simpa using hall a ha
      rw [if_pos (by rw [hemp]; rfl)]
  · intro a ha
    have hemp : ¬((boolean_attribute_ids kb).filter
        (fun a_id => a_id ∉ st.asked_attribute_ids)).isEmpty := by
      intro hemp
      rw [if_pos hemp] at ha
      cases ha
    rw [if_neg hemp] at ha
    rcases selectFold_spec (expected_entropy_yes_no kb st.candidate_ids)
        ((boolean_attribute_ids kb).filter (fun a_id => a_id ∉ st.asked_attribute_ids))
        none (-1) with ⟨heq, hall⟩ | ⟨a', l1, l2, hl, heq, hgt, h1, h2⟩
    · exfalso
      have hne : (boolean_attribute_ids kb).filter
          (fun a_id => a_id ∉ st.asked_attribute_ids) ≠ [] := by
        simpa [List.isEmpty_iff] using hemp
      obtain ⟨x, hx⟩ := List.exists_mem_of_ne_nil _ hne
      have h0 := expected_entropy_yes_no_nonneg kb st.candidate_ids x
      have := hall x hx
      linarith
    · unfold selectLoop at ha
      rw [heq] at ha
      cases ha
      have hmem : a ∈ (boolean_attribute_ids kb).filter
          (fun a_id => a_id ∉ st.asked_attribute_ids) := by
        rw [hl]
        exact List.mem_append.mpr (Or.inr (List.mem_cons_self _ _))
      obtain ⟨hbool, hask⟩ := List.mem_filter.mp hmem
      have hask' : a ∉ st.asked_attribute_ids := by simpa using hask
      refine ⟨hask', ?_, ?_, l1, l2, hl, h1⟩
      · unfold boolean_attribute_ids at hbool
        obtain ⟨attr, hattr, hid⟩ := List.mem_map.mp hbool
        obtain ⟨hattrmem, hkind⟩ := List.mem_filter.mp hattr
        refine ⟨attr, hattrmem, hid, by simpa using hkind⟩
      · intro b hb hbask
        have hbmem : b ∈ (boolean_attribute_ids kb).filter
            (fun a_id => a_id ∉ st.asked_attribute_ids) :=
          List.mem_filter.mpr ⟨hb, by simpa using hbask⟩
        rw [hl] at hbmem
        rcases List.mem_append.mp hbmem with hbl | hbr
        · exact le_of_lt (h1 b hbl)
        · rcases List.mem_cons.mp hbr with rfl | hbl2
          · exact le_refl _
          · exact h2 b hbl2

/-- Witness for C4: on a KB with one boolean and no asked attributes, the
selector returns that attribute, which is unasked and boolean. -/
theorem C4_witness :
    select_next_attribute kb0 (guesserInit kb0) = some "a"
    ∧ "a" ∉ (guesserInit kb0).asked_attribute_ids
    ∧ (∃ attr ∈ kb0.attributes, attr.id = "a" ∧ attr.kind = "boolean") := by
  have hscore : expected_entropy_yes_no kb0 (guesserInit kb0).candidate_ids "a" = 0 := by
    unfold expected_entropy_yes_no
    have hc : yes_no_partition_counts kb0 (guesserInit kb0).candidate_ids "a"
        = (0, 0, 0) := by decide
    rw [hc]
    simp [entropy_from_counts]
  have hsel : select_next_attribute kb0 (guesserInit kb0) = some "a" := by
    unfold select_next_attribute
    dsimp only
    have hcands : (boolean_attribute_ids kb0).filter
        (fun a_id => a_id ∉ (guesserInit kb0).asked_attribute_ids) = ["a"] := by decide
    rw [hcands]
    rw [if_neg (by simp)]
    unfold selectLoop
    rw [List.foldl_cons]
    have hgt : expected_entropy_yes_no kb0 (guesserInit kb0).candidate_ids "a"
        > (-1 : ℝ) := by
      rw [hscore]
      norm_num
    rw [if_pos hgt]
    rfl
  obtain ⟨-, h2⟩ := C4_select_next_attribute kb0 (guesserInit kb0)
  obtain ⟨hna, hex, -, -⟩ := h2 "a" hsel
  exact ⟨hsel, hna, hex⟩

/-- List-map sums as indexed sums over the positions of the list. -/
theorem list_map_sum_eq_range (l : List ℕ) (f : ℕ → ℝ) :
    (l.map f).sum = ∑ i in Finset.range l.length, f (l.getD i 0) := by
  induction l with
  | nil => simp
  | cons x xs ih =>
    rw [List.map_cons, List.sum_cons, ih, List.length_cons, Finset.sum_range_succ']
    have hshift : ∑ i in Finset.range xs.length, f ((x :: xs).getD (i + 1) 0)
        = ∑ i in Finset.range xs.length, f (xs.getD i 0) :=
      Finset.sum_congr rfl (fun i _ => rfl)
    rw [hshift]
    exact add_comm _ _

/-- A zero-count bucket contributes nothing to the entropy. -/
theorem entropy_cons_zero (counts : List ℕ) :
    entropy_from_counts (0 :: counts) = entropy_from_counts counts := by
  unfold entropy_from_counts
  simp only [List.sum_cons, Nat.zero_add]
  split_ifs with h
  · rfl
  · rw [List.map_cons]
    have h00 : entropyTerm counts.sum 0 = 0 := by
      unfold entropyTerm
      simp
    rw [h00, List.sum_cons, zero_add]

/-- Entropy of a single-bucket distribution is zero. -/
theorem entropy_single {n : ℕ} (hn : 0 < n) : entropy_from_counts [n, 0, 0] = 0 := by
  unfold entropy_from_counts
  have hsum : ([n, 0, 0] : List ℕ).sum = n := by simp
  rw [hsum, if_neg (by omega)]
  have h1 : entropyTerm n n = 0 := by
    unfold entropyTerm
    rw [if_neg (by omega)]
    rw [div_self (by exact_mod_cast hn.ne' : (n : ℝ) ≠ 0)]
    simp
  have h2 : entropyTerm n 0 = 0 := by
    unfold entropyTerm
    simp
  simp [h1, h2]

/-- Entropy of an even split over `m` non-empty buckets of equal count `k`
is `log2 m`. -/
theorem entropy_replicate {m k : ℕ} (hm : 0 < m) (hk : 0 < k) :
    entropy_from_counts (List.replicate m k) = Real.logb 2 m := by
  unfold entropy_from_counts
  have hsum : (List.replicate m k).sum = m * k := by
    simp [List.sum_replicate, smul_eq_mul]
  rw [hsum, if_neg (Nat.mul_ne_zero hm.ne' hk.ne')]
  rw [List.map_replicate, List.sum_replicate]
  have hm0 : (m : ℝ) ≠ 0 := by exact_mod_cast hm.ne'
  have hk0 : (k : ℝ) ≠ 0 := by exact_mod_cast hk.ne'
  have hterm : entropyTerm (m * k) k = (m : ℝ)⁻¹ * Real.logb 2 ((m : ℝ)⁻¹) := by
    unfold entropyTerm
    rw [if_neg hk.ne']
    have hq : ((k : ℝ)) / (((m * k : ℕ) : ℝ)) = (m : ℝ)⁻¹ := by
      push_cast
      field_simp
      ring
    rw [hq]
  rw [hterm, nsmul_eq_mul, Real.logb_inv]
  field_simp

/-- The Shannon entropy of a count list is at most `log2` of the number of
buckets (Jensen's inequality for the concave logarithm). -/
theorem entropy_le_logb_length (counts : List ℕ) :
    entropy_from_counts counts ≤ Real.logb 2 counts.length := by
  by_cases h0 : counts.sum = 0
  · unfold entropy_from_counts
    rw [if_pos h0]
    rcases Nat.eq_zero_or_pos counts.length with hl | hl
    · rw [hl]
      simp
    · exact Real.logb_nonneg (by norm_num) (by exact_mod_cast hl)
  · have hn : 0 < counts.sum := Nat.pos_of_ne_zero h0
    have hnR : (0 : ℝ) < (counts.sum : ℝ) := by exact_mod_cast hn
    unfold entropy_from_counts
    rw [if_neg h0, list_map_sum_eq_range]
    set n := counts.sum with hn_def
    set k := counts.length with hk_def
    set c : ℕ → ℕ := fun i => counts.getD i 0 with hc_def
    set w : ℕ → ℝ := fun i => (c i : ℝ) / (n : ℝ) with hw_def
    have hsum_c : ∑ i in Finset.range k, (c i : ℝ) = (n : ℝ) := by
      have h1 := list_map_sum_eq_range counts (fun x => (x : ℝ))
      rw [← h1, hn_def, Nat.cast_list_sum]
    set t : Finset ℕ := (Finset.range k).filter (fun i => c i ≠ 0) with ht_def
    have hw_nonneg : ∀ i, 0 ≤ w i := by
      intro i
      rw [hw_def]
      positivity
    have hw_pos : ∀ i ∈ t, 0 < w i := by
      intro i hi
      have hci : c i ≠ 0 := (Finset.mem_filter.mp hi).2
      rw [hw_def]
      have : (0 : ℝ) < (c i : ℝ) := by exact_mod_cast Nat.pos_of_ne_zero hci
      exact div_pos this hnR
    have hw_sum : ∑ i in t, w i = 1 := by
      have h1 : ∑ i in t, w i = ∑ i in Finset.range k, w i := by
        apply Finset.sum_filter_of_ne
        intro i _ hwi
        intro hc0
        apply hwi
        rw [hw_def]
        dsimp only
        rw [hc0]
        simp
      rw [h1, hw_def]
      dsimp only
      rw [← Finset.sum_div, hsum_c, div_self hnR.ne']
    have ht_ne : t.Nonempty := by
      by_contra hne
      rw [Finset.not_nonempty_iff_eq_empty] at hne
      rw [hne, Finset.sum_empty] at hw_sum
      norm_num at hw_sum
    have hterm_eq : ∑ i in Finset.range k, entropyTerm n (c i)
        = ∑ i in t, w i * Real.logb 2 (w i) := by
      have h1 : ∑ i in t, entropyTerm n (c i)
          = ∑ i in Finset.range k, entropyTerm n (c i) := by
        apply Finset.sum_filter_of_ne
        intro i _ hne hc0
        apply hne
        unfold entropyTerm
        rw [if_pos hc0]
      rw [← h1]
      apply Finset.sum_congr rfl
      intro i hi
      have hci : c i ≠ 0 := (Finset.mem_filter.mp hi).2
      unfold entropyTerm
      rw [if_neg hci]
    rw [hterm_eq]
    have hstep1 : -(∑ i in t, w i * Real.logb 2 (w i))
        = ∑ i in t, w i * Real.logb 2 ((w i)⁻¹) := by
      simp [Real.logb_inv, mul_neg, ← Finset.sum_neg_distrib]
    rw [hstep1]
    have hconc : ConcaveOn ℝ (Set.Ioi 0) Real.log := strictConcaveOn_log_Ioi.concaveOn
    have hjen := hconc.le_map_sum (fun i _ => hw_nonneg i) hw_sum
      (fun i hi => Set.mem_Ioi.mpr (inv_pos.mpr (hw_pos i hi)))
    simp only [smul_eq_mul] at hjen
    have hsum_inv : ∑ i in t, w i * (w i)⁻¹ = (t.card : ℝ) := by
      rw [Finset.sum_congr rfl (fun i hi => mul_inv_cancel₀ (hw_pos i hi).ne')]
      simp
    rw [hsum_inv] at hjen
    have hlog2 : (0 : ℝ) < Real.log 2 := Real.log_pos (by norm_num)
    have hchain : ∑ i in t, w i * Real.logb 2 ((w i)⁻¹)
        = (∑ i in t, w i * Real.log ((w i)⁻¹)) / Real.log 2 := by
      rw [Finset.sum_div]
      apply Finset.sum_congr rfl
      intro i _
      rw [Real.logb, mul_div_assoc]
    rw [hchain]
    have hcard_pos : (0 : ℝ) < (t.card : ℝ) := by
      exact_mod_cast Finset.card_pos.mpr ht_ne
    have hcard_le : (t.card : ℝ) ≤ (k : ℝ) := by
      have hle := Finset.card_filter_le (Finset.range k) (fun i => c i ≠ 0)
      rw [Finset.card_range] at hle
      exact_mod_cast hle
    calc (∑ i in t, w i * Real.log ((w i)⁻¹)) / Real.log 2
        ≤ Real.log (t.card : ℝ) / Real.log 2 := by
          exact (div_le_div_iff_of_pos_right hlog2).mpr hjen
      _ = Real.logb 2 (t.card : ℝ) := rfl
      _ ≤ Real.logb 2 (k : ℝ) :=
          Real.logb_le_logb_of_le (by norm_num) hcard_pos hcard_le

/-- C8: zero-count buckets contribute nothing to `entropy_from_counts`;
the entropy is `0` whenever all mass sits in one bucket
(`entropy_from_counts [n,0,0] = 0` for `n > 0`); an even split over `m`
non-empty buckets yields `log2 m` bits, in particular
`entropy_from_counts [k,k,k] = log2 3` for `k > 0`; and `log2` of the
bucket count is an upper bound for the entropy of every count list. -/
theorem C8_entropy_from_counts :
    (∀ counts : List ℕ, entropy_from_counts (0 :: counts) = entropy_from_counts counts)
    ∧ (∀ n : ℕ, 0 < n → entropy_from_counts [n, 0, 0] = 0)
    ∧ (∀ m k : ℕ, 0 < m → 0 < k →
        entropy_from_counts (List.replicate m k) = Real.logb 2 m)
    ∧ (∀ k : ℕ, 0 < k → entropy_from_counts [k, k, k] = Real.logb 2 3)
    ∧ (∀ counts : List ℕ, entropy_from_counts counts ≤ Real.logb 2 counts.length) := by
  refine ⟨entropy_cons_zero, fun n hn => entropy_single hn,
    fun m k hm hk => entropy_replicate hm hk, fun k hk => ?_, entropy_le_logb_length⟩
  have h := entropy_replicate (m := 3) (k := k) (by omega) hk
  simpa using h

/-- Witness for C8 at concrete counts: one bucket of mass two has zero
entropy, and three buckets of mass five have `log2 3` bits. -/
theorem C8_witness :
    entropy_from_counts [2, 0, 0] = 0
    ∧ entropy_from_counts [5, 5, 5] = Real.logb 2 3 := by
  obtain ⟨-, h2, -, h4, -⟩ := C8_entropy_from_counts
  exact ⟨h2 2 (by omega), h4 5 (by omega)⟩

end Guesscraft
